import Mathlib

/-!
# Verification of the tradinghours storage core

Shallow embedding of `src/tradinghours/store.py` and
`src/tradinghours/catalog.py`: the Store → Collection → Cluster hierarchy,
the Registry memoization mechanism, the DeclaredFile ingestion descriptors,
and the Catalog query facade.

Modelling conventions:
* A filesystem path is a list of components (`FsPath`); the filesystem is an
  explicit association list from path to file content plus a set of created
  directories (`FS`).  All stateful Python code becomes explicit state
  passing over `FS` and the object tree.
* A persisted record is opaque to the storage layer.  `Record` distinguishes
  the two serializations actually produced by the two ingestion paths:
  `store.py`'s `store_item` persists `item.to_dict()` (a field dictionary),
  while `catalog.py`'s ingest persists `item.to_tuple()` (a value tuple)
  through `store_tuple`.
* `slugify` lives in `tradinghours/util.py`, outside the verified tree; every
  operation that slugifies a name takes the slugifier as an explicit function
  argument.
* Python exceptions become explicit error values (`PyErr`), and operations
  that can raise mid-way return the state reached so far together with the
  error, matching the fact that Python mutations before a raise persist.
-/

set_option autoImplicit false

/-- Python exception kinds raised by the embedded code paths. -/
inductive PyErr where
  | valueError : PyErr
  | typeError : PyErr
  | attributeError : PyErr
  | ioError : PyErr
  deriving DecidableEq, Repr

/-- A persisted record, opaque to the storage layer.  `dictRec` is the shape
written by `store.py`'s `Store.store_item` (`item.to_dict()`); `tupRec` is the
shape written by `catalog.py`'s ingest path (`item.to_tuple()`). -/
inductive Record where
  | dictRec : List (String × String) → Record
  | tupRec : List String → Record
  deriving DecidableEq, Repr

/-- A filesystem path, as a list of components. -/
abbrev FsPath := List String

/-- One line of a cluster log file: `json.dump([key, tuple])` from
`Cluster.append` serializes the optional key and the record. -/
abbrev LogLine := Option String × Record

/-- Content of one cluster log file, in append order. -/
abbrev FileContent := List LogLine

/-- First value bound to key `k` in an association list (Python `dict.get`). -/
def assocFind? {K T : Type} [DecidableEq K] (l : List (K × T)) (k : K) :
    Option T :=
  (l.find? (fun e => decide (e.1 = k))).map (·.2)

/-- Update the value bound to key `k` in place, keeping insertion order. -/
def assocUpdate {K T : Type} [DecidableEq K] (l : List (K × T)) (k : K)
    (f : T → T) : List (K × T) :=
  l.map (fun e => if e.1 = k then (e.1, f e.2) else e)

/-- Python `dict.__setitem__`: overwrite in place when the key exists
(keeping its position in insertion order), append at the end otherwise. -/
def assocSet {K T : Type} [DecidableEq K] (l : List (K × T)) (k : K) (v : T) :
    List (K × T) :=
  match assocFind? l k with
  | some _ => l.map (fun e => if e.1 = k then (k, v) else e)
  | none => l ++ [(k, v)]

/-- The five Model types bound by descriptors.  The Model classes themselves
(`tradinghours/currency.py`, `market.py`, `schedule.py`) are external
collaborators; only their identity matters for descriptor routing. -/
inductive ModelType where
  | Currency : ModelType
  | CurrencyHoliday : ModelType
  | Market : ModelType
  | MarketHoliday : ModelType
  | Schedule : ModelType
  deriving DecidableEq, Repr

/-- Which serialization a descriptor's `ingest` persists: `store.py`'s
`DeclaredFile.ingest` calls `store.store_item(current, ...)` which appends
`item.to_dict()`, while `catalog.py`'s `DeclaredFile.ingest` calls
`store.store_tuple(current.to_tuple(), ...)`. -/
inductive Serialization where
  | dictSer : Serialization
  | tupSer : Serialization
  deriving DecidableEq, Repr

/-- The filesystem state: files (path ↦ log lines) and created directories. -/
structure FS where
  files : List (FsPath × FileContent)
  dirs : List FsPath
  deriving DecidableEq, Repr

namespace FS

/-- Look up the content of the file at `p`, or `none` if absent. -/
def lookupFile (fs : FS) (p : FsPath) : Option FileContent :=
  assocFind? fs.files p

/-- `Path.touch(exist_ok=True)`: create an empty file if absent, keep the
existing content otherwise. -/
def touchFile (fs : FS) (p : FsPath) : FS :=
  match fs.lookupFile p with
  | some _ => fs
  | none => { fs with files := fs.files ++ [(p, [])] }

/-- `Path.unlink(missing_ok=True)`: remove the file if present. -/
def unlink (fs : FS) (p : FsPath) : FS :=
  { fs with files := fs.files.filter (fun e => decide (e.1 ≠ p)) }

/-- `open(p, "a")` followed by writing one line: append to the file,
creating it when absent. -/
def appendLine (fs : FS) (p : FsPath) (line : LogLine) : FS :=
  match fs.lookupFile p with
  | some _ => { fs with files := assocUpdate fs.files p (· ++ [line]) }
  | none => { fs with files := fs.files ++ [(p, [line])] }

/-- `Path.mkdir(exist_ok=True)`. -/
def mkdir (fs : FS) (p : FsPath) : FS :=
  if p ∈ fs.dirs then fs else { fs with dirs := fs.dirs ++ [p] }

end FS

namespace store

/-! ## `store.py` -/

/-- `SourceFile.__init__` stores the raw name and root; `replaceChars a b`
models Python's `str.replace(a, b)` for one-character patterns (a charwise
scan replacing every occurrence). -/
def replaceChars (a b : Char) : List Char → List Char
  | [] => []
  | c :: cs => (if c = a then b else c) :: replaceChars a b cs

/-- `SourceFile`: binds a raw name (`self._name`) to a root folder
(`self._root`).  The model capability is external and not needed here. -/
structure SourceFile where
  _name : String
  _root : FsPath
  deriving DecidableEq, Repr

/-- `SourceFile.name`: `self._name.replace("-", "_")`. -/
def SourceFile.name (s : SourceFile) : String :=
  ⟨replaceChars '-' '_' s._name.data⟩

/-- The CSV filename derived from a raw descriptor name:
`name.replace("_", "-") + ".csv"`. -/
def filenameOf (n : String) : String :=
  String.mk (replaceChars '_' '-' n.data) ++ ".csv"

/-- `SourceFile.filename`: `self._name.replace("_", "-") + ".csv"`. -/
def SourceFile.filename (s : SourceFile) : String :=
  filenameOf s._name

/-- `SourceFile.path`: `self._root / self.filename`. -/
def SourceFile.path (s : SourceFile) : FsPath :=
  s._root ++ [s.filename]

/-- `Cluster`: manages one page file (`self._location`). -/
structure Cluster where
  location : FsPath
  deriving DecidableEq, Repr

/-- `Cluster.touch`: `self.location.touch(exist_ok=True)`. -/
def Cluster.touch (c : Cluster) (fs : FS) : FS :=
  fs.touchFile c.location

/-- `Cluster.delete`: `self.location.unlink(missing_ok=True)`. -/
def Cluster.delete (c : Cluster) (fs : FS) : FS :=
  fs.unlink c.location

/-- `Cluster.append(key, tuple)`: serialize `[key, tuple]` as one line
appended to the log file. -/
def Cluster.append (c : Cluster) (key : Option String) (tuple : Record)
    (fs : FS) : FS :=
  fs.appendLine c.location (key, tuple)

/-- One replay step of `load_all`'s mapping construction: assigning under an
existing key keeps the entry's position and replaces its value (Python dict
update), a new key is appended at the end (insertion order). -/
def insertLWW (m : List LogLine) (entry : LogLine) : List LogLine :=
  if m.any (fun e => decide (e.1 = entry.1)) then
    m.map (fun e => if e.1 = entry.1 then (e.1, entry.2) else e)
  else m ++ [entry]

/-- Replay a log file into an ordered mapping, later same-key lines winning. -/
def replay (content : FileContent) : List LogLine :=
  content.foldl insertLWW []

/-- Modelled from the spec: `Cluster.load_all` is called by `catalog.py` but
not defined anywhere under the source tree.  Spec §4.2: "read the file from
the start, replay every line, and build a mapping; when two lines carry the
same key, the later line in file order overwins the earlier one
(last-write-wins)", the mapping being ordered (a Python dict). -/
def Cluster.load_all (c : Cluster) (fs : FS) : List LogLine :=
  replay ((fs.lookupFile c.location).getD [])

/-- `Registry`: keeps track of keyed resources (`self._resources`, a dict
from slug to resource, in insertion order). -/
structure Registry (T : Type) where
  resources : List (String × T)
  deriving Repr

/-- `Registry.get(name)`: slugify the name, return the memoized resource if
present, otherwise call `create(slug)`, store the result and return it.  The
overridable `create` and the external `slugify` are explicit arguments;
`create` may touch the filesystem-like state `σ`. -/
def Registry.get {T σ : Type} (slugify : String → String)
    (create : String → σ → T × σ) (r : Registry T) (name : String)
    (st : σ) : T × Registry T × σ :=
  let slug := slugify name
  match assocFind? r.resources slug with
  | some resource => (resource, r, st)
  | none =>
      let p := create slug st
      (p.1, ⟨r.resources ++ [(slug, p.1)]⟩, p.2)

/-- Replace the resource memoized under `slug` (models in-place mutation of a
resource object reached through the registry). -/
def Registry.update {T : Type} (r : Registry T) (slug : String) (v : T) :
    Registry T :=
  ⟨r.resources.map (fun e => if e.1 = slug then (slug, v) else e)⟩

/-- `ClusterRegistry`: Registry of Clusters inside a collection folder. -/
structure ClusterRegistry where
  folder : FsPath
  reg : Registry Cluster
  deriving Repr

/-- `ClusterRegistry.create(slug)`: a Cluster at `folder / f"{slug}.dat"`,
touched on creation. -/
def ClusterRegistry.create (folder : FsPath) (slug : String) (fs : FS) :
    Cluster × FS :=
  let cluster : Cluster := ⟨folder ++ [slug ++ ".dat"]⟩
  (cluster, cluster.touch fs)

/-- `ClusterRegistry.get` via the generic `Registry.get`. -/
def ClusterRegistry.get (slugify : String → String) (cr : ClusterRegistry)
    (name : String) (fs : FS) : Cluster × ClusterRegistry × FS :=
  let p := Registry.get slugify (ClusterRegistry.create cr.folder) cr.reg name fs
  (p.1, { cr with reg := p.2.1 }, p.2.2)

/-- `Collection`: a folder plus its ClusterRegistry (`self._clusters`). -/
structure Collection where
  folder : FsPath
  clusters : ClusterRegistry
  deriving Repr

/-- `Collection.touch`: `self.folder.mkdir(exist_ok=True)`. -/
def Collection.touch (c : Collection) (fs : FS) : FS :=
  fs.mkdir c.folder

/-- `Collection.clear`: delete every registered Cluster's backing file, then
replace the ClusterRegistry with a fresh empty one. -/
def Collection.clear (c : Collection) (fs : FS) : Collection × FS :=
  let fs' := c.clusters.reg.resources.foldl (fun acc e => e.2.delete acc) fs
  ({ c with clusters := ⟨c.folder, ⟨[]⟩⟩ }, fs')

/-- `CollectionRegistry`: Registry of Collections inside the store root. -/
structure CollectionRegistry where
  root : FsPath
  reg : Registry Collection
  deriving Repr

/-- `CollectionRegistry.create(slug)`: a Collection at `root / slug`,
touched on creation. -/
def CollectionRegistry.create (root : FsPath) (slug : String) (fs : FS) :
    Collection × FS :=
  let folder := root ++ [slug]
  let collection : Collection := ⟨folder, ⟨folder, ⟨[]⟩⟩⟩
  (collection, collection.touch fs)

/-- `CollectionRegistry.get` via the generic `Registry.get`. -/
def CollectionRegistry.get (slugify : String → String)
    (cr : CollectionRegistry) (name : String) (fs : FS) :
    Collection × CollectionRegistry × FS :=
  let p := Registry.get slugify (CollectionRegistry.create cr.root) cr.reg name fs
  (p.1, { cr with reg := p.2.1 }, p.2.2)

/-- A parsed record, external to the storage layer (`BaseObject` subclasses
live in `tradinghours/currency.py`, `market.py`, `schedule.py`, outside the
verified tree).  Only the attributes read by the DeclaredFile resolvers and
the two serialization contracts are modelled. -/
structure BaseObject where
  code : String
  currency_code : String
  date : String
  fin_id_country : String
  fin_id : String
  fields : List (String × String)
  deriving DecidableEq, Repr

/-- `item.to_dict()`: the record as a field dictionary. -/
def BaseObject.to_dict (b : BaseObject) : Record :=
  .dictRec b.fields

/-- `item.to_tuple()`: the record as an ordered value tuple. -/
def BaseObject.to_tuple (b : BaseObject) : Record :=
  .tupRec (b.fields.map (·.2))

/-- `Store`: the root object owning the CollectionRegistry. -/
structure Store where
  root : FsPath
  collections : CollectionRegistry
  deriving Repr

/-- `Store.touch`: `self.root.mkdir(exist_ok=True)`. -/
def Store.touch (s : Store) (fs : FS) : FS :=
  fs.mkdir s.root

/-- Shared tail of the two write paths: resolve the Collection, fall back to
the cluster name `"unique"` when none is given, resolve the Cluster, and
append `(key, record)`; the mutated Collection is written back under its
slug (Python mutates the shared object in place). -/
def Store.appendRecord (slugify : String → String) (s : Store) (fs : FS)
    (record : Record) (collection : String) (cluster : Option String)
    (key : Option String) : Store × FS :=
  let pc := CollectionRegistry.get slugify s.collections collection fs
  let colObj := pc.1
  let colReg := pc.2.1
  let clusterName := match cluster with | none => "unique" | some c => c
  let pl := ClusterRegistry.get slugify colObj.clusters clusterName pc.2.2
  let colObj' := { colObj with clusters := pl.2.1 }
  let collections' := { colReg with reg := colReg.reg.update (slugify collection) colObj' }
  ({ s with collections := collections' }, pl.1.append key record pl.2.2)

/-- `Store.store_item(item, collection, cluster=None, key=None)`: appends
`(key, item.to_dict())` to the resolved cluster. -/
def Store.store_item (slugify : String → String) (s : Store) (fs : FS)
    (item : BaseObject) (collection : String) (cluster : Option String)
    (key : Option String) : Store × FS :=
  Store.appendRecord slugify s fs item.to_dict collection cluster key

/-- Modelled from the spec: `Store.store_tuple` is called by `catalog.py`'s
ingest but not defined anywhere under the source tree.  Spec §4.4/§4.6 treat
it as the `store_item`-equivalent write for already-serialized tuple data:
resolve collection and cluster the same way and append `(key, data)`. -/
def Store.store_tuple (slugify : String → String) (s : Store) (fs : FS)
    (data : Record) (collection : String) (cluster : Option String)
    (key : Option String) : Store × FS :=
  Store.appendRecord slugify s fs data collection cluster key

/-- `Store.clear_collection(name)`: resolve the Collection and clear it,
writing the mutated Collection back under its slug. -/
def Store.clear_collection (slugify : String → String) (s : Store) (fs : FS)
    (name : String) : Store × FS :=
  let pc := CollectionRegistry.get slugify s.collections name fs
  let pk := pc.1.clear pc.2.2
  ({ s with collections :=
      { pc.2.1 with reg := pc.2.1.reg.update (slugify name) pk.1 } }, pk.2)

/-- A concrete `DeclaredFile` descriptor class: the class attributes `name`
and `model` (both defaulting to `None` on the base class), the two overridable
derivation hooks, whether `pre_ingest` clears the target collection
(`ScheduleFile` does), and which serialization its `ingest` persists.
`resolve_collection` is not overridden by any concrete descriptor and always
yields the descriptor's own `name`, so it is inlined at the call site. -/
structure DeclaredFileCls where
  name : Option String
  model : Option ModelType
  resolve_cluster : BaseObject → Option String
  resolve_key : BaseObject → Option String
  pre_ingest_clears : Bool
  serialization : Serialization

/-- `DeclaredFile.__init_subclass__`: raise `ValueError` unless both `name`
and `model` are defined, then register the class in `known_files` under its
name (Python dict assignment). -/
def DeclaredFile.init_subclass (table : List (String × DeclaredFileCls))
    (cls : DeclaredFileCls) : Except PyErr (List (String × DeclaredFileCls)) :=
  match cls.name with
  | none => .error .valueError
  | some n =>
      match cls.model with
      | none => .error .valueError
      | some _ => .ok (assocSet table n cls)

/-- Elaborate a sequence of concrete descriptor class definitions: each
introduction runs `__init_subclass__` once, in definition order, and a
failure aborts the module load. -/
def elabClasses (table : List (String × DeclaredFileCls)) :
    List DeclaredFileCls → Except PyErr (List (String × DeclaredFileCls))
  | [] => .ok table
  | cls :: rest =>
      match DeclaredFile.init_subclass table cls with
      | .error e => .error e
      | .ok table' => elabClasses table' rest

/-- `store.py`'s `CurrencyFile`. -/
def CurrencyFile : DeclaredFileCls where
  name := some "currencies"
  model := some .Currency
  resolve_cluster := fun _ => none
  resolve_key := fun item => some item.code
  pre_ingest_clears := false
  serialization := .dictSer

/-- `store.py`'s `CurrencyHolidayFile`. -/
def CurrencyHolidayFile : DeclaredFileCls where
  name := some "currency_holidays"
  model := some .CurrencyHoliday
  resolve_cluster := fun item => some item.currency_code
  resolve_key := fun item => some item.date
  pre_ingest_clears := false
  serialization := .dictSer

/-- `store.py`'s `MarketFile`. -/
def MarketFile : DeclaredFileCls where
  name := some "markets"
  model := some .Market
  resolve_cluster := fun item => some item.fin_id_country
  resolve_key := fun item => some item.fin_id
  pre_ingest_clears := false
  serialization := .dictSer

/-- `store.py`'s `MarketHolidayFile`. -/
def MarketHolidayFile : DeclaredFileCls where
  name := some "holidays"
  model := some .MarketHoliday
  resolve_cluster := fun item => some item.fin_id
  resolve_key := fun item => some item.date
  pre_ingest_clears := false
  serialization := .dictSer

/-- `store.py`'s `ScheduleFile`: `pre_ingest` clears its collection, no key
resolver. -/
def ScheduleFile : DeclaredFileCls where
  name := some "schedules"
  model := some .Schedule
  resolve_cluster := fun item => some item.fin_id
  resolve_key := fun _ => none
  pre_ingest_clears := true
  serialization := .dictSer

/-- The concrete descriptor classes of `store.py`, in definition order. -/
def moduleClasses : List DeclaredFileCls :=
  [CurrencyFile, CurrencyHolidayFile, MarketFile, MarketHolidayFile,
   ScheduleFile]

/-- `store.py`'s `DeclaredFile.known_files` after the module is loaded. -/
def DeclaredFile.known_files : List (String × DeclaredFileCls) :=
  [("currencies", CurrencyFile), ("currency_holidays", CurrencyHolidayFile),
   ("markets", MarketFile), ("holidays", MarketHolidayFile),
   ("schedules", ScheduleFile)]

/-- A CSV data folder: maps a filename to the parse outcomes of its rows
(`Model.from_csv` is an external collaborator; a row either parses to an
item or raises), or to `none` when the file is missing or unreadable. -/
abbrev CsvFolder := String → Option (List (Except PyErr BaseObject))

/-- The row loop of `DeclaredFile.ingest`: store each parsed record under its
resolved collection, cluster and key; a row that fails to parse raises,
leaving the writes made so far in place. -/
def ingestRows (slugify : String → String) (d : DeclaredFileCls) (nm : String)
    (rows : List (Except PyErr BaseObject)) (s : Store) (fs : FS) :
    Option PyErr × Store × FS :=
  match rows with
  | [] => (none, s, fs)
  | .error e :: _ => (some e, s, fs)
  | .ok item :: rest =>
      let (s', fs') :=
        match d.serialization with
        | .dictSer =>
            Store.store_item slugify s fs item nm (d.resolve_cluster item)
              (d.resolve_key item)
        | .tupSer =>
            Store.store_tuple slugify s fs item.to_tuple nm
              (d.resolve_cluster item) (d.resolve_key item)
      ingestRows slugify d nm rest s' fs'

/-- `DeclaredFile.ingest(store)`: run `pre_ingest`, open the descriptor's CSV
source, and store every parsed record. -/
def DeclaredFile.ingest (slugify : String → String) (d : DeclaredFileCls)
    (folder : CsvFolder) (s : Store) (fs : FS) : Option PyErr × Store × FS :=
  match d.name with
  | none => (some .valueError, s, fs)
  | some nm =>
      let p :=
        if d.pre_ingest_clears then Store.clear_collection slugify s fs nm
        else (s, fs)
      match folder (filenameOf nm) with
      | none => (some .ioError, p.1, p.2)
      | some rows => ingestRows slugify d nm rows p.1 p.2

/-- Ingest a list of registered descriptors in table order; the first error
aborts the run, keeping the state reached so far. -/
def ingestList (slugify : String → String)
    (ds : List (String × DeclaredFileCls)) (folder : CsvFolder) (s : Store)
    (fs : FS) : Option PyErr × Store × FS :=
  match ds with
  | [] => (none, s, fs)
  | e :: rest =>
      match DeclaredFile.ingest slugify e.2 folder s fs with
      | (some err, s', fs') => (some err, s', fs')
      | (none, s', fs') => ingestList slugify rest folder s' fs'

/-- `Store.ingest_all(data_folder)`: ingest every descriptor registered in
`store.py`'s `DeclaredFile.known_files`. -/
def Store.ingest_all (slugify : String → String) (folder : CsvFolder)
    (s : Store) (fs : FS) : Option PyErr × Store × FS :=
  ingestList slugify DeclaredFile.known_files folder s fs

end store

namespace catalog

/-! ## `catalog.py`

`catalog.py` does not import `store.py`'s `DeclaredFile`; it defines its own
`DeclaredFile(SourceFile)` base class with its own `known_files = {}` table,
and redefines the five concrete descriptor classes.  Its `ingest` serializes
through `current.to_tuple()` and `store.store_tuple` instead of
`store.store_item`/`to_dict`. -/

/-- `catalog.py`'s `CurrencyFile`. -/
def CurrencyFile : store.DeclaredFileCls :=
  { store.CurrencyFile with serialization := .tupSer }

/-- `catalog.py`'s `CurrencyHolidayFile`. -/
def CurrencyHolidayFile : store.DeclaredFileCls :=
  { store.CurrencyHolidayFile with serialization := .tupSer }

/-- `catalog.py`'s `MarketFile`. -/
def MarketFile : store.DeclaredFileCls :=
  { store.MarketFile with serialization := .tupSer }

/-- `catalog.py`'s `MarketHolidayFile`. -/
def MarketHolidayFile : store.DeclaredFileCls :=
  { store.MarketHolidayFile with serialization := .tupSer }

/-- `catalog.py`'s `ScheduleFile`. -/
def ScheduleFile : store.DeclaredFileCls :=
  { store.ScheduleFile with serialization := .tupSer }

/-- The concrete descriptor classes of `catalog.py`, in definition order. -/
def moduleClasses : List store.DeclaredFileCls :=
  [CurrencyFile, CurrencyHolidayFile, MarketFile, MarketHolidayFile,
   ScheduleFile]

/-- `catalog.py`'s `DeclaredFile.known_files` after the module is loaded —
a table distinct from `store.py`'s. -/
def DeclaredFile.known_files : List (String × store.DeclaredFileCls) :=
  [("currencies", CurrencyFile), ("currency_holidays", CurrencyHolidayFile),
   ("markets", MarketFile), ("holidays", MarketHolidayFile),
   ("schedules", ScheduleFile)]

/-- `Catalog`: facade over an underlying store (`self._store`). -/
structure Catalog where
  _store : store.Store

/-- `Catalog.find_model_collection(model)`: scan `catalog.py`'s descriptor
table for the first descriptor whose `model` is the requested type and
resolve its collection; fall off the loop (yield nothing usable) when no
descriptor matches. -/
def Catalog.find_model_collection (slugify : String → String) (c : Catalog)
    (fs : FS) (m : ModelType) :
    Option (String × store.Collection × store.CollectionRegistry × FS) :=
  match DeclaredFile.known_files.find? (fun e => decide (e.2.model = some m)) with
  | none => none
  | some e =>
      let p := store.CollectionRegistry.get slugify c._store.collections e.1 fs
      some (e.1, p.1, p.2.1, p.2.2)

/-- The lookup loop of `Catalog.get`: return the first record whose stored
key compares equal (`==`) to the requested key; `None` keys never match a
string key. -/
def pyGetLoop (data : List LogLine) (key : String) : Option Record :=
  match data with
  | [] => none
  | e :: rest => if e.1 = some key then some e.2 else pyGetLoop rest key

/-- `Catalog.get(model, key, cluster=None)`: resolve the collection, resolve
the cluster by the given name or the read-path fallback `"default"` (Python
`cluster or "default"`, so an empty string also falls back), load it fully,
and return the first matching decoded record or `None`.  An unknown model
type makes the `collection.clusters` attribute access raise. -/
def Catalog.get (slugify : String → String) (c : Catalog) (fs : FS)
    (m : ModelType) (key : String) (cluster : Option String) :
    Except PyErr (Option Record) × store.Store × FS :=
  match Catalog.find_model_collection slugify c fs m with
  | none => (.error .attributeError, c._store, fs)
  | some q =>
      let cluster_name :=
        match cluster with
        | none => "default"
        | some s => if s = "" then "default" else s
      let pl := store.ClusterRegistry.get slugify q.2.1.clusters cluster_name q.2.2.2
      let col' := { q.2.1 with clusters := pl.2.1 }
      let s' : store.Store :=
        { c._store with collections :=
            { q.2.2.1 with reg := q.2.2.1.reg.update (slugify q.1) col' } }
      (.ok (pyGetLoop (pl.1.load_all pl.2.2) key), s', pl.2.2)

/-- Python string `<=`: lexicographic comparison of the code-point
sequences. -/
def charListLe : List Char → List Char → Bool
  | [], _ => true
  | _ :: _, [] => false
  | a :: as, b :: bs =>
      if a < b then true else if b < a then false else charListLe as bs

/-- Python `a <= b` on strings. -/
def pyStrLe (a b : String) : Bool :=
  charListLe a.data b.data

/-- The comparison loop of `Catalog.filter`, as consumed by a caller that
iterates the generator to exhaustion: records yielded before any error,
together with the error if one is raised.  Comparing a `None` key against a
string bound raises `TypeError`. -/
def pyFilterLoop (data : List LogLine) (key_start key_end : String) :
    List Record × Option PyErr :=
  match data with
  | [] => ([], none)
  | e :: rest =>
      match e.1 with
      | none => ([], some .typeError)
      | some k =>
          if pyStrLe key_start k && pyStrLe k key_end then
            let p := pyFilterLoop rest key_start key_end
            (e.2 :: p.1, p.2)
          else pyFilterLoop rest key_start key_end

/-- `Catalog.filter(model, key_start, key_end, cluster=None)`: same
resolution as `get`, yielding every record whose key satisfies
`key_start <= key <= key_end` under plain string comparison. -/
def Catalog.filter (slugify : String → String) (c : Catalog) (fs : FS)
    (m : ModelType) (key_start key_end : String) (cluster : Option String) :
    (List Record × Option PyErr) × store.Store × FS :=
  match Catalog.find_model_collection slugify c fs m with
  | none => (([], some .attributeError), c._store, fs)
  | some q =>
      let cluster_name :=
        match cluster with
        | none => "default"
        | some s => if s = "" then "default" else s
      let pl := store.ClusterRegistry.get slugify q.2.1.clusters cluster_name q.2.2.2
      let col' := { q.2.1 with clusters := pl.2.1 }
      let s' : store.Store :=
        { c._store with collections :=
            { q.2.2.1 with reg := q.2.2.1.reg.update (slugify q.1) col' } }
      ((pyFilterLoop (pl.1.load_all pl.2.2) key_start key_end), s', pl.2.2)

/-- `Catalog.ingest_all(csv_folder)` with an explicit folder: ingest every
descriptor of `catalog.py`'s own table against the underlying store.  The
trailing `self.store.flush()` is modelled from the spec as a no-op
placeholder (§4.6), `flush` not being defined under the source tree. -/
def Catalog.ingest_all (slugify : String → String) (c : Catalog)
    (folder : store.CsvFolder) (fs : FS) : Option PyErr × store.Store × FS :=
  store.ingestList slugify DeclaredFile.known_files folder c._store fs

end catalog

/-! ## Association list lemmas -/

section AssocLemmas

variable {K T : Type} [DecidableEq K]

theorem assocFind?_cons (e : K × T) (l : List (K × T)) (k : K) :
    assocFind? (e :: l) k = if e.1 = k then some e.2 else assocFind? l k := by
  unfold assocFind?
  rw [List.find?_cons]
  by_cases h : e.1 = k <;> simp [h]

theorem assocFind?_append_of_none {l₁ : List (K × T)} {k : K}
    (l₂ : List (K × T)) (h : assocFind? l₁ k = none) :
    assocFind? (l₁ ++ l₂) k = assocFind? l₂ k := by
  induction l₁ with
  | nil => rfl
  | cons e l ih =>
      rw [assocFind?_cons] at h
      rw [List.cons_append, assocFind?_cons]
      by_cases he : e.1 = k
      · simp [he] at h
      · simp only [he, if_false] at h ⊢
        exact ih h

theorem assocFind?_append_of_some {l₁ : List (K × T)} {k : K} {v : T}
    (l₂ : List (K × T)) (h : assocFind? l₁ k = some v) :
    assocFind? (l₁ ++ l₂) k = some v := by
  induction l₁ with
  | nil => simp [assocFind?] at h
  | cons e l ih =>
      rw [assocFind?_cons] at h
      rw [List.cons_append, assocFind?_cons]
      by_cases he : e.1 = k
      · simpa [he] using h
      · simp only [he, if_false] at h ⊢
        exact ih h

theorem assocFind?_assocUpdate_self (l : List (K × T)) (k : K) (f : T → T) :
    assocFind? (assocUpdate l k f) k = (assocFind? l k).map f := by
  induction l with
  | nil => rfl
  | cons e l ih =>
      rw [assocUpdate, List.map_cons, ← assocUpdate, assocFind?_cons,
        assocFind?_cons]
      by_cases he : e.1 = k
      · simp [he]
      · simp only [he, if_false, if_neg he]
        exact ih

theorem assocFind?_assocUpdate_ne (l : List (K × T)) (k k' : K) (f : T → T)
    (h : k' ≠ k) :
    assocFind? (assocUpdate l k f) k' = assocFind? l k' := by
  induction l with
  | nil => rfl
  | cons e l ih =>
      rw [assocUpdate, List.map_cons, ← assocUpdate]
      by_cases he : e.1 = k
      · have hne : e.1 ≠ k' := by rw [he]; exact fun hc => h hc.symm
        rw [if_pos he, assocFind?_cons, assocFind?_cons, if_neg hne,
          if_neg hne]
        exact ih
      · rw [if_neg he, assocFind?_cons, assocFind?_cons]
        by_cases he' : e.1 = k'
        · rw [if_pos he', if_pos he']
        · rw [if_neg he', if_neg he']
          exact ih

theorem assocFind?_filter_ne (l : List (K × T)) (p q : K) (h : q ≠ p) :
    assocFind? (l.filter (fun e => decide (e.1 ≠ p))) q = assocFind? l q := by
  induction l with
  | nil => rfl
  | cons e l ih =>
      by_cases he : e.1 = p
      · have hne : e.1 ≠ q := by rw [he]; exact fun hc => h hc.symm
        rw [List.filter_cons_of_neg (by simp [he]), assocFind?_cons,
          if_neg hne]
        exact ih
      · rw [List.filter_cons_of_pos (by simp [he]), assocFind?_cons,
          assocFind?_cons]
        by_cases he' : e.1 = q
        · rw [if_pos he', if_pos he']
        · rw [if_neg he', if_neg he']
          exact ih

theorem assocFind?_map_set (l : List (K × T)) (k : K) (v : T) :
    assocFind? (l.map (fun e => if e.1 = k then (k, v) else e)) k
      = (assocFind? l k).map (fun _ => v) := by
  induction l with
  | nil => rfl
  | cons e l ih =>
      rw [List.map_cons, assocFind?_cons, assocFind?_cons]
      by_cases he : e.1 = k
      · simp [he]
      · simp only [he, if_false, if_neg he]
        exact ih

theorem assocFind?_assocSet_self (l : List (K × T)) (k : K) (v : T) :
    assocFind? (assocSet l k v) k = some v := by
  unfold assocSet
  cases h : assocFind? l k with
  | none => rw [assocFind?_append_of_none _ h, assocFind?_cons]; simp
  | some w => rw [assocFind?_map_set, h]; rfl

end AssocLemmas

/-! ## Filesystem lemmas -/

namespace FS

theorem lookupFile_touchFile_self (fs : FS) (p : FsPath) :
    (fs.touchFile p).lookupFile p = some ((fs.lookupFile p).getD []) := by
  unfold touchFile
  cases h : fs.lookupFile p with
  | some c => simp [h]
  | none =>
      simp only [h]
      unfold lookupFile at h ⊢
      rw [assocFind?_append_of_none _ h, assocFind?_cons]
      simp

theorem lookupFile_touchFile_ne (fs : FS) (p q : FsPath) (h : q ≠ p) :
    (fs.touchFile p).lookupFile q = fs.lookupFile q := by
  unfold touchFile
  cases hp : fs.lookupFile p with
  | some c => rfl
  | none =>
      show assocFind? (fs.files ++ [(p, [])]) q = fs.lookupFile q
      cases hq : fs.lookupFile q with
      | some c => exact assocFind?_append_of_some _ hq
      | none =>
          rw [assocFind?_append_of_none _ hq, assocFind?_cons,
            if_neg (fun hc => h hc.symm)]
          rfl

theorem lookupFile_appendLine_self (fs : FS) (p : FsPath) (line : LogLine) :
    (fs.appendLine p line).lookupFile p
      = some ((fs.lookupFile p).getD [] ++ [line]) := by
  unfold appendLine
  cases h : fs.lookupFile p with
  | some c =>
      simp only [h]
      show assocFind? _ p = _
      rw [assocFind?_assocUpdate_self]
      unfold lookupFile at h
      rw [h]
      rfl
  | none =>
      simp only [h]
      show assocFind? _ p = _
      unfold lookupFile at h
      rw [assocFind?_append_of_none _ h, assocFind?_cons]
      simp

theorem lookupFile_appendLine_ne (fs : FS) (p q : FsPath) (line : LogLine)
    (h : q ≠ p) :
    (fs.appendLine p line).lookupFile q = fs.lookupFile q := by
  unfold appendLine
  cases hp : fs.lookupFile p with
  | some c =>
      show assocFind? (assocUpdate fs.files p (· ++ [line])) q = fs.lookupFile q
      rw [assocFind?_assocUpdate_ne _ _ _ _ h]
      rfl
  | none =>
      show assocFind? (fs.files ++ [(p, [line])]) q = fs.lookupFile q
      cases hq : fs.lookupFile q with
      | some c => exact assocFind?_append_of_some _ hq
      | none =>
          rw [assocFind?_append_of_none _ hq, assocFind?_cons,
            if_neg (fun hc => h hc.symm)]
          rfl

theorem lookupFile_unlink_self (fs : FS) (p : FsPath) :
    (fs.unlink p).lookupFile p = none := by
  have h : List.find? (fun e => decide (e.1 = p))
      (fs.files.filter (fun e => decide (e.1 ≠ p))) = none := by
    rw [List.find?_eq_none]
    intro e he
    have h2 := List.of_mem_filter he
    simp only [decide_eq_true_eq] at h2 ⊢
    exact h2
  show (List.find? (fun e => decide (e.1 = p))
      (fs.files.filter (fun e => decide (e.1 ≠ p)))).map (·.2) = none
  rw [h]
  rfl

theorem lookupFile_unlink_ne (fs : FS) (p q : FsPath) (h : q ≠ p) :
    (fs.unlink p).lookupFile q = fs.lookupFile q := by
  show assocFind? (fs.files.filter (fun e => decide (e.1 ≠ p))) q
    = assocFind? fs.files q
  exact assocFind?_filter_ne _ p q h

theorem lookupFile_unlink_none (fs : FS) (p q : FsPath)
    (h : fs.lookupFile q = none) : (fs.unlink p).lookupFile q = none := by
  by_cases hq : q = p
  · rw [hq]; exact lookupFile_unlink_self fs p
  · rw [lookupFile_unlink_ne fs p q hq]; exact h

theorem lookupFile_mkdir (fs : FS) (p q : FsPath) :
    (fs.mkdir p).lookupFile q = fs.lookupFile q := by
  unfold mkdir
  split <;> rfl

end FS

/-! ## Replay (`load_all`) lemmas -/

namespace store

/-- The key sequence of a loaded mapping. -/
def keysOf (m : List LogLine) : List (Option String) :=
  m.map (·.1)

theorem keysOf_insertLWW (m : List LogLine) (entry : LogLine) :
    keysOf (insertLWW m entry)
      = if m.any (fun e => decide (e.1 = entry.1)) then keysOf m
        else keysOf m ++ [entry.1] := by
  unfold insertLWW
  split
  · next h =>
      unfold keysOf
      rw [List.map_map]
      apply List.map_congr_left
      intro e _
      by_cases he : e.1 = entry.1 <;> simp [he]
  · next h =>
      unfold keysOf
      rw [List.map_append]
      rfl

theorem keysOf_insertLWW_nodup {m : List LogLine} (entry : LogLine)
    (h : (keysOf m).Nodup) : (keysOf (insertLWW m entry)).Nodup := by
  rw [keysOf_insertLWW]
  split
  · exact h
  · next hany =>
      rw [List.nodup_append]
      refine ⟨h, List.nodup_singleton _, ?_⟩
      intro a ha hb
      rw [List.mem_singleton] at hb
      subst hb
      rw [List.any_eq_true] at hany
      apply hany
      unfold keysOf at ha
      rw [List.mem_map] at ha
      obtain ⟨e, he, hk⟩ := ha
      exact ⟨e, he, by simp [hk]⟩

theorem keysOf_foldl_insertLWW_nodup (l : FileContent) :
    ∀ m : List LogLine, (keysOf m).Nodup →
      (keysOf (l.foldl insertLWW m)).Nodup := by
  induction l with
  | nil => intro m h; exact h
  | cons e l ih =>
      intro m h
      rw [List.foldl_cons]
      exact ih _ (keysOf_insertLWW_nodup e h)

theorem replay_keys_nodup (l : FileContent) : (keysOf (replay l)).Nodup :=
  keysOf_foldl_insertLWW_nodup l [] (by simp [keysOf])

theorem filter_eq_nil_of_no_key (m : List LogLine) (k : Option String)
    (h : ∀ e ∈ m, e.1 ≠ k) :
    m.filter (fun e => decide (e.1 = k)) = [] := by
  rw [List.filter_eq_nil_iff]
  intro e he
  simpa using h e he

theorem filter_map_overwrite (k : Option String) (v : Record)
    (m : List LogLine) (h : (keysOf m).Nodup)
    (hany : m.any (fun e => decide (e.1 = k)) = true) :
    (m.map (fun e => if e.1 = k then (e.1, v) else e)).filter
      (fun e => decide (e.1 = k)) = [(k, v)] := by
  induction m with
  | nil => simp at hany
  | cons e m ih =>
      unfold keysOf at h
      rw [List.map_cons, List.nodup_cons] at h
      obtain ⟨hnotin, hnd⟩ := h
      by_cases he : e.1 = k
      · rw [List.map_cons, if_pos he, List.filter_cons_of_pos (by simp [he])]
        have hnok : ∀ e' ∈ m, ¬ e'.1 = k := by
          intro e' he' hc
          apply hnotin
          rw [he, ← hc]
          exact List.mem_map_of_mem _ he'
        have hzero : (m.map (fun e => if e.1 = k then (e.1, v) else e)).filter
            (fun e => decide (e.1 = k)) = [] := by
          rw [List.filter_eq_nil_iff]
          intro a ha
          rw [List.mem_map] at ha
          obtain ⟨b, hb, rfl⟩ := ha
          rw [if_neg (hnok b hb)]
          simp only [decide_eq_true_eq]
          exact hnok b hb
        rw [hzero, he]
      · rw [List.map_cons, if_neg he, List.filter_cons_of_neg (by simp [he])]
        rw [List.any_cons] at hany
        exact ih hnd (by simpa [he] using hany)

theorem filter_insertLWW_self (m : List LogLine) (k : Option String)
    (v : Record) (h : (keysOf m).Nodup) :
    (insertLWW m (k, v)).filter (fun e => decide (e.1 = k)) = [(k, v)] := by
  unfold insertLWW
  dsimp only
  split
  · next hany => exact filter_map_overwrite k v m h hany
  · next hany =>
      rw [List.filter_append, List.filter_cons_of_pos (by simp),
        List.filter_nil,
        filter_eq_nil_of_no_key m k
          (fun e he hc => hany (List.any_eq_true.mpr ⟨e, he, by simp [hc]⟩))]
      rfl

theorem replay_append (l₁ l₂ : FileContent) :
    replay (l₁ ++ l₂) = l₂.foldl insertLWW (replay l₁) := by
  unfold replay
  rw [List.foldl_append]

end store

/-! ## Claim theorems -/

/-- C5.  For every Registry and every pair of names that slugify to the same
slug: `get` returns the memoized instance when one exists; otherwise it calls
`create` exactly once, stores the result under the slug, and returns it; and
a second `get` with an equi-slug name returns the identical resource and
leaves both the registry and the creation state untouched. -/
theorem c5_registry_memoizes_per_slug {T σ : Type} (slugify : String → String)
    (create : String → σ → T × σ) (r : store.Registry T) (n1 n2 : String)
    (st : σ) (h : slugify n1 = slugify n2) :
    (∀ v, assocFind? r.resources (slugify n1) = some v →
        store.Registry.get slugify create r n1 st = (v, r, st)) ∧
    (assocFind? r.resources (slugify n1) = none →
        store.Registry.get slugify create r n1 st =
          ((create (slugify n1) st).1,
            ⟨r.resources ++ [(slugify n1, (create (slugify n1) st).1)]⟩,
            (create (slugify n1) st).2)) ∧
    store.Registry.get slugify create
        (store.Registry.get slugify create r n1 st).2.1 n2
        (store.Registry.get slugify create r n1 st).2.2
      = store.Registry.get slugify create r n1 st := by
  refine ⟨?_, ?_, ?_⟩
  · intro v hv
    unfold store.Registry.get
    dsimp only
    rw [hv]
  · intro hv
    unfold store.Registry.get
    dsimp only
    rw [hv]
  · unfold store.Registry.get
    dsimp only
    rw [← h]
    cases h0 : assocFind? r.resources (slugify n1) with
    | some v => simp only [h0]
    | none =>
        simp only [h0]
        rw [assocFind?_append_of_none _ h0, assocFind?_cons]
        simp

/-- C5 witness: a concrete registry hit and double-get on slug "a". -/
theorem c5_registry_memoizes_per_slug_witness :
    (∀ v, assocFind? (store.Registry.mk [("a", 5)] : store.Registry Nat).resources
        (id "a") = some v →
        store.Registry.get id (fun _ st => (st + 1, st + 1))
          (store.Registry.mk [("a", 5)]) "a" 0 = (v, ⟨[("a", 5)]⟩, 0)) ∧
    (assocFind? (store.Registry.mk [("a", 5)] : store.Registry Nat).resources
        (id "a") = none →
        store.Registry.get id (fun _ st => (st + 1, st + 1))
          (store.Registry.mk [("a", 5)]) "a" 0 =
          (1, ⟨[("a", 5)] ++ [(id "a", 1)]⟩, 1)) ∧
    store.Registry.get id (fun _ st => (st + 1, st + 1))
        (store.Registry.get id (fun _ st => (st + 1, st + 1))
          (store.Registry.mk [("a", 5)]) "a" 0).2.1 "a"
        (store.Registry.get id (fun _ st => (st + 1, st + 1))
          (store.Registry.mk [("a", 5)]) "a" 0).2.2
      = store.Registry.get id (fun _ st => (st + 1, st + 1))
          (store.Registry.mk [("a", 5)]) "a" 0 :=
  c5_registry_memoizes_per_slug id (fun _ st => (st + 1, st + 1))
    ⟨[("a", 5)]⟩ "a" "a" 0 rfl

/-- C8.  Introducing a concrete DeclaredFile descriptor type without both
`name` and `model` fails at registration time with a `ValueError`; one that
defines both is entered into the descriptor table under its name. -/
theorem c8_init_subclass_requires_name_and_model
    (table : List (String × store.DeclaredFileCls))
    (cls : store.DeclaredFileCls) :
    (cls.name = none ∨ cls.model = none →
      store.DeclaredFile.init_subclass table cls = .error .valueError) ∧
    (∀ n m, cls.name = some n → cls.model = some m →
      store.DeclaredFile.init_subclass table cls = .ok (assocSet table n cls) ∧
      assocFind? (assocSet table n cls) n = some cls) := by
  constructor
  · intro hc
    unfold store.DeclaredFile.init_subclass
    cases hn : cls.name with
    | none => rfl
    | some n =>
        cases hm : cls.model with
        | none => rfl
        | some m =>
            cases hc with
            | inl hbad => rw [hn] at hbad; exact Option.noConfusion hbad
            | inr hbad => rw [hm] at hbad; exact Option.noConfusion hbad
  · intro n m hn hm
    unfold store.DeclaredFile.init_subclass
    rw [hn, hm]
    exact ⟨rfl, assocFind?_assocSet_self table n cls⟩

/-- C8 witness: registering `store.py`'s `CurrencyFile` into an empty table
succeeds and lands under "currencies"; dropping its `name` fails. -/
theorem c8_init_subclass_requires_name_and_model_witness :
    (store.DeclaredFile.init_subclass [] store.CurrencyFile
        = .ok (assocSet [] "currencies" store.CurrencyFile) ∧
      assocFind? (assocSet [] "currencies" store.CurrencyFile) "currencies"
        = some store.CurrencyFile) ∧
    store.DeclaredFile.init_subclass []
        { store.CurrencyFile with name := none } = .error .valueError :=
  ⟨(c8_init_subclass_requires_name_and_model [] store.CurrencyFile).2
      "currencies" .Currency rfl rfl,
    (c8_init_subclass_requires_name_and_model []
      { store.CurrencyFile with name := none }).1 (Or.inl rfl)⟩

/-- Boolean version of "the two character sequences differ only in using
hyphens versus underscores". -/
def hyphenEquiv : List Char → List Char → Bool
  | [], [] => true
  | a :: as, b :: bs =>
      ((a == b) || (a == '-' && b == '_') || (a == '_' && b == '-'))
        && hyphenEquiv as bs
  | _, _ => false

theorem replaceChars_eq_map (a b : Char) (l : List Char) :
    store.replaceChars a b l = l.map (fun c => if c = a then b else c) := by
  induction l with
  | nil => rfl
  | cons c cs ih => rw [store.replaceChars, List.map_cons, ih]

theorem replaceChars_hyphenEquiv {l1 l2 : List Char}
    (h : hyphenEquiv l1 l2 = true) :
    store.replaceChars '-' '_' l1 = store.replaceChars '-' '_' l2 ∧
    store.replaceChars '_' '-' l1 = store.replaceChars '_' '-' l2 := by
  induction l1 generalizing l2 with
  | nil => cases l2 with
    | nil => exact ⟨rfl, rfl⟩
    | cons b bs => simp [hyphenEquiv] at h
  | cons a as ih =>
      cases l2 with
      | nil => simp [hyphenEquiv] at h
      | cons b bs =>
          rw [hyphenEquiv, Bool.and_eq_true] at h
          obtain ⟨hhead, htail⟩ := h
          obtain ⟨ih1, ih2⟩ := ih htail
          simp only [Bool.or_eq_true, Bool.and_eq_true, beq_iff_eq] at hhead
          rcases hhead with (rfl | ⟨rfl, rfl⟩) | ⟨rfl, rfl⟩ <;>
            exact ⟨by simp [store.replaceChars, ih1],
              by simp [store.replaceChars, ih2]⟩

/-- C10.  `SourceFile.name` replaces every hyphen of the raw name by an
underscore, `SourceFile.filename` replaces every underscore by a hyphen and
appends ".csv"; consequently two SourceFiles over the same root whose names
differ only in hyphens versus underscores resolve to the same CSV path. -/
theorem c10_source_file_name_filename_path (s1 s2 : store.SourceFile)
    (hroot : s1._root = s2._root)
    (hrel : hyphenEquiv s1._name.data s2._name.data = true) :
    (∀ (n : String) (root : FsPath),
        (store.SourceFile.name ⟨n, root⟩).data
          = n.data.map (fun c => if c = '-' then '_' else c) ∧
        store.SourceFile.filename ⟨n, root⟩
          = String.mk (n.data.map (fun c => if c = '_' then '-' else c))
              ++ ".csv") ∧
    s1.name = s2.name ∧ s1.filename = s2.filename ∧ s1.path = s2.path := by
  obtain ⟨h1, h2⟩ := replaceChars_hyphenEquiv hrel
  refine ⟨fun n root => ⟨?_, ?_⟩, ?_, ?_, ?_⟩
  · exact replaceChars_eq_map '-' '_' n.data
  · unfold store.SourceFile.filename store.filenameOf
    rw [replaceChars_eq_map]
  · unfold store.SourceFile.name
    rw [h1]
  · unfold store.SourceFile.filename store.filenameOf
    rw [h2]
  · unfold store.SourceFile.path store.SourceFile.filename store.filenameOf
    rw [h2, hroot]

/-- C10 witness: "currency-holidays" and "currency_holidays" over the same
root resolve to the same CSV path. -/
theorem c10_source_file_name_filename_path_witness :
    (∀ (n : String) (root : FsPath),
        (store.SourceFile.name ⟨n, root⟩).data
          = n.data.map (fun c => if c = '-' then '_' else c) ∧
        store.SourceFile.filename ⟨n, root⟩
          = String.mk (n.data.map (fun c => if c = '_' then '-' else c))
              ++ ".csv") ∧
    store.SourceFile.name ⟨"currency-holidays", ["csv"]⟩
        = store.SourceFile.name ⟨"currency_holidays", ["csv"]⟩ ∧
    store.SourceFile.filename ⟨"currency-holidays", ["csv"]⟩
        = store.SourceFile.filename ⟨"currency_holidays", ["csv"]⟩ ∧
    store.SourceFile.path ⟨"currency-holidays", ["csv"]⟩
        = store.SourceFile.path ⟨"currency_holidays", ["csv"]⟩ :=
  c10_source_file_name_filename_path ⟨"currency-holidays", ["csv"]⟩
    ⟨"currency_holidays", ["csv"]⟩ rfl (by decide)

/-- A Store freshly bound to `root`: empty CollectionRegistry. -/
def freshStore (root : FsPath) : store.Store :=
  ⟨root, ⟨root, ⟨[]⟩⟩⟩

/-- A sample parsed record. -/
def itemX : store.BaseObject :=
  ⟨"USD", "USD", "2023-01-02", "US", "US.NYSE", [("code", "USD")]⟩

/-- C2.  Both call sites use the stated fallback slugs: `store_item` with no
cluster writes to the cluster named "unique" (on a fresh store the appended
line lands in the file `<root>/<collection-slug>/unique.dat` and the
collection's cluster registry holds exactly the slug "unique"), and
`Catalog.get`/`Catalog.filter` with no cluster read from the cluster named
"default". -/
theorem c2_fallback_cluster_slugs (slugify : String → String)
    (h1 : slugify "unique" = "unique") :
    (∀ (s : store.Store) (fs : FS) (item : store.BaseObject) (coll : String)
        (key : Option String),
        store.Store.store_item slugify s fs item coll none key
          = store.Store.store_item slugify s fs item coll (some "unique") key) ∧
    (∀ (root : FsPath) (item : store.BaseObject) (coll : String)
        (key : Option String),
        (store.Store.store_item slugify (freshStore root) ⟨[], []⟩ item coll
            none key).2.files
          = [(root ++ [slugify coll, "unique.dat"], [(key, item.to_dict)])] ∧
        (assocFind? ((store.Store.store_item slugify (freshStore root)
              ⟨[], []⟩ item coll none key).1.collections.reg.resources)
            (slugify coll)).map
            (fun col => col.clusters.reg.resources.map (·.1))
          = some ["unique"]) ∧
    (∀ (c : catalog.Catalog) (fs : FS) (m : ModelType) (key : String),
        catalog.Catalog.get slugify c fs m key none
          = catalog.Catalog.get slugify c fs m key (some "default")) ∧
    (∀ (c : catalog.Catalog) (fs : FS) (m : ModelType) (ks ke : String),
        catalog.Catalog.filter slugify c fs m ks ke none
          = catalog.Catalog.filter slugify c fs m ks ke (some "default")) := by
  refine ⟨fun s fs item coll key => rfl, fun root item coll key => ?_,
    fun c fs m key => rfl, fun c fs m ks ke => rfl⟩
  unfold store.Store.store_item store.Store.appendRecord freshStore
  simp only [store.CollectionRegistry.get, store.ClusterRegistry.get,
    store.Registry.get, store.CollectionRegistry.create,
    store.ClusterRegistry.create, store.Collection.touch, store.Cluster.touch,
    store.Cluster.append, store.Registry.update, FS.mkdir, FS.touchFile,
    FS.appendLine, FS.lookupFile, assocFind?, assocUpdate, List.find?_nil,
    Option.map_none', List.nil_append, h1, List.mem_nil_iff, if_false,
    List.find?_cons, List.map_cons, List.map_nil]
  simp

/-- C2 witness: concrete fresh-store write with no cluster argument. -/
theorem c2_fallback_cluster_slugs_witness :
    (store.Store.store_item id (freshStore ["r"]) ⟨[], []⟩ itemX "coll" none
        (some "k")).2.files
      = [(["r"] ++ [id "coll", "unique.dat"], [(some "k", itemX.to_dict)])] ∧
    (assocFind? ((store.Store.store_item id (freshStore ["r"]) ⟨[], []⟩ itemX
          "coll" none (some "k")).1.collections.reg.resources)
        (id "coll")).map (fun col => col.clusters.reg.resources.map (·.1))
      = some ["unique"] :=
  (c2_fallback_cluster_slugs id rfl).2.1 ["r"] itemX "coll" (some "k")

theorem assocFind?_singleton_self {K T : Type} [DecidableEq K] (k : K)
    (v : T) : assocFind? [(k, v)] k = some v := by
  simp [assocFind?]

/-- The descriptor-table name bound to each Model type. -/
def collectionNameOf : ModelType → String
  | .Currency => "currencies"
  | .CurrencyHoliday => "currency_holidays"
  | .Market => "markets"
  | .MarketHoliday => "holidays"
  | .Schedule => "schedules"

/-- The `catalog.py` descriptor class bound to each Model type. -/
def catalogClsOf : ModelType → store.DeclaredFileCls
  | .Currency => catalog.CurrencyFile
  | .CurrencyHoliday => catalog.CurrencyHolidayFile
  | .Market => catalog.MarketFile
  | .MarketHoliday => catalog.MarketHolidayFile
  | .Schedule => catalog.ScheduleFile

theorem catalog_known_files_find (m : ModelType) :
    catalog.DeclaredFile.known_files.find?
        (fun e => decide (e.2.model = some m))
      = some (collectionNameOf m, catalogClsOf m) := by
  cases m <;> rfl

/-- A Catalog over a store holding one collection for `m`'s descriptor name,
whose cluster registry holds one cluster, registered under the slug of
"default", backed by the file at `loc`. -/
def readCatalog (slugify : String → String) (m : ModelType) (loc : FsPath) :
    catalog.Catalog :=
  ⟨⟨["root"], ⟨["root"],
    ⟨[(slugify (collectionNameOf m),
       ⟨["root", slugify (collectionNameOf m)],
        ⟨["root", slugify (collectionNameOf m)],
         ⟨[(slugify "default", ⟨loc⟩)]⟩⟩⟩)]⟩⟩⟩⟩

/-- A filesystem holding one file at `loc` with content `L`. -/
def readFS (loc : FsPath) (L : FileContent) : FS :=
  ⟨[(loc, L)], []⟩

theorem pyGetLoop_eq_none {data : List LogLine} {key : String}
    (h : ∀ e ∈ data, e.1 ≠ some key) : catalog.pyGetLoop data key = none := by
  induction data with
  | nil => rfl
  | cons e rest ih =>
      rw [catalog.pyGetLoop, if_neg (h e (List.mem_cons_self e rest))]
      exact ih (fun e' he' => h e' (List.mem_cons_of_mem e he'))

theorem pyGetLoop_first (L1 : List LogLine) (v : Record) (L2 : List LogLine)
    (key : String) (h : ∀ e ∈ L1, e.1 ≠ some key) :
    catalog.pyGetLoop (L1 ++ (some key, v) :: L2) key = some v := by
  induction L1 with
  | nil => rw [List.nil_append, catalog.pyGetLoop, if_pos rfl]
  | cons e rest ih =>
      rw [List.cons_append, catalog.pyGetLoop,
        if_neg (h e (List.mem_cons_self e rest))]
      exact ih (fun e' he' => h e' (List.mem_cons_of_mem e he'))

/-- C4.  `Catalog.get` returns the first decoded record whose key equals the
requested key in the loaded mapping's iteration order, and an explicit `None`
when no stored key matches. -/
theorem c4_catalog_get_first_match_or_absent (slugify : String → String)
    (m : ModelType) (key : String) (loc : FsPath) (L : FileContent) :
    (catalog.Catalog.get slugify (readCatalog slugify m loc) (readFS loc L)
          m key none).1
        = .ok (catalog.pyGetLoop (store.replay L) key) ∧
    ((∀ e ∈ store.replay L, e.1 ≠ some key) →
      (catalog.Catalog.get slugify (readCatalog slugify m loc) (readFS loc L)
          m key none).1 = .ok none) ∧
    (∀ (L1 : List LogLine) (v : Record) (L2 : List LogLine),
      store.replay L = L1 ++ (some key, v) :: L2 →
      (∀ e ∈ L1, e.1 ≠ some key) →
      (catalog.Catalog.get slugify (readCatalog slugify m loc) (readFS loc L)
          m key none).1 = .ok (some v)) := by
  have h1 : (catalog.Catalog.get slugify (readCatalog slugify m loc)
      (readFS loc L) m key none).1
        = .ok (catalog.pyGetLoop (store.replay L) key) := by
    unfold catalog.Catalog.get catalog.Catalog.find_model_collection
    rw [catalog_known_files_find m]
    dsimp only [readCatalog, store.CollectionRegistry.get,
      store.ClusterRegistry.get, store.Registry.get]
    rw [assocFind?_singleton_self]
    dsimp only
    rw [assocFind?_singleton_self]
    dsimp only [store.Cluster.load_all, FS.lookupFile, readFS]
    rw [assocFind?_singleton_self]
    rfl
  refine ⟨h1, fun h => ?_, fun L1 v L2 hL hno => ?_⟩
  · rw [h1, pyGetLoop_eq_none h]
  · rw [h1, hL, pyGetLoop_first L1 v L2 key hno]

/-- C4 witness: a two-entry cluster where "USD" is matched and "EUR" absent. -/
theorem c4_catalog_get_first_match_or_absent_witness :
    (catalog.Catalog.get id (readCatalog id .Currency ["loc"])
        (readFS ["loc"] [(some "USD", Record.dictRec [("code", "USD")])])
        .Currency "USD" none).1
      = .ok (some (Record.dictRec [("code", "USD")])) ∧
    (catalog.Catalog.get id (readCatalog id .Currency ["loc"])
        (readFS ["loc"] [(some "USD", Record.dictRec [("code", "USD")])])
        .Currency "EUR" none).1
      = .ok none :=
  ⟨(c4_catalog_get_first_match_or_absent id .Currency "USD" ["loc"]
      [(some "USD", Record.dictRec [("code", "USD")])]).2.2 []
      (Record.dictRec [("code", "USD")]) [] (by decide) (by decide),
    (c4_catalog_get_first_match_or_absent id .Currency "EUR" ["loc"]
      [(some "USD", Record.dictRec [("code", "USD")])]).2.1 (by decide)⟩

theorem pyFilterLoop_all_some (ks ke : String) (data : List LogLine)
    (h : ∀ e ∈ data, e.1 ≠ none) :
    catalog.pyFilterLoop data ks ke
      = (data.filterMap (fun e =>
          match e.1 with
          | some k =>
              if catalog.pyStrLe ks k && catalog.pyStrLe k ke then some e.2
              else none
          | none => none), none) := by
  induction data with
  | nil => rfl
  | cons e rest ih =>
      have he := h e (List.mem_cons_self e rest)
      have ht := ih (fun e' he' => h e' (List.mem_cons_of_mem e he'))
      cases hk : e.1 with
      | none => exact absurd hk he
      | some k =>
          rw [catalog.pyFilterLoop, List.filterMap_cons, hk]
          dsimp only
          by_cases hc : (catalog.pyStrLe ks k && catalog.pyStrLe k ke) = true
          · rw [if_pos hc, if_pos hc]
            dsimp only
            rw [ht]
          · rw [if_neg hc, if_neg hc]
            dsimp only
            exact ht

/-- C3 counterexample.  A legally stored record with a null key (e.g. any
record ingested without a key resolver) makes `Catalog.filter` raise a
`TypeError` on the comparison instead of merely excluding out-of-range keys:
nothing is yielded although the cluster also holds the record under key "B",
which lies inside the requested range "A" ≤ "B" ≤ "M". -/
theorem c3_filter_null_key_counterexample :
    (catalog.Catalog.filter (fun s => s)
        (readCatalog (fun s => s) .Currency ["loc"])
        (readFS ["loc"]
          [(none, Record.dictRec []), (some "B", Record.dictRec [("f", "v")])])
        .Currency "A" "M" none).1
      = ([], some .typeError) ∧
    catalog.pyStrLe "A" "B" = true ∧ catalog.pyStrLe "B" "M" = true := by
  refine ⟨by decide, by decide, by decide⟩

/-- C3 (amended).  On a cluster all of whose loaded keys are non-null,
`Catalog.filter` yields exactly the stored records whose key `k` satisfies
`key_start <= k <= key_end` under plain code-point-lexicographic string
comparison — both bounds inclusive — and excludes every other record. -/
theorem c3_filter_lexicographic_range (slugify : String → String)
    (m : ModelType) (ks ke : String) (loc : FsPath) (L : FileContent)
    (hkeys : ∀ e ∈ store.replay L, e.1 ≠ none) :
    (catalog.Catalog.filter slugify (readCatalog slugify m loc)
          (readFS loc L) m ks ke none).1
      = ((store.replay L).filterMap (fun e =>
          match e.1 with
          | some k =>
              if catalog.pyStrLe ks k && catalog.pyStrLe k ke then some e.2
              else none
          | none => none), none) := by
  have h1 : (catalog.Catalog.filter slugify (readCatalog slugify m loc)
      (readFS loc L) m ks ke none).1
        = catalog.pyFilterLoop (store.replay L) ks ke := by
    unfold catalog.Catalog.filter catalog.Catalog.find_model_collection
    rw [catalog_known_files_find m]
    dsimp only [readCatalog, store.CollectionRegistry.get,
      store.ClusterRegistry.get, store.Registry.get]
    rw [assocFind?_singleton_self]
    dsimp only
    rw [assocFind?_singleton_self]
    dsimp only [store.Cluster.load_all, FS.lookupFile, readFS]
    rw [assocFind?_singleton_self]
    rfl
  rw [h1, pyFilterLoop_all_some ks ke _ hkeys]

/-- C3 witness: with keys "B" and "Z" stored, the range ["A", "M"] yields
exactly the "B" record. -/
theorem c3_filter_lexicographic_range_witness :
    (catalog.Catalog.filter id (readCatalog id .Currency ["loc"])
          (readFS ["loc"]
            [(some "B", Record.dictRec [("f", "v")]),
             (some "Z", Record.dictRec [("g", "w")])])
          .Currency "A" "M" none).1
      = ((store.replay
            [(some "B", Record.dictRec [("f", "v")]),
             (some "Z", Record.dictRec [("g", "w")])]).filterMap (fun e =>
          match e.1 with
          | some k =>
              if catalog.pyStrLe "A" k && catalog.pyStrLe k "M" then some e.2
              else none
          | none => none), none) :=
  c3_filter_lexicographic_range id .Currency "A" "M" ["loc"]
    [(some "B", Record.dictRec [("f", "v")]),
     (some "Z", Record.dictRec [("g", "w")])] (by decide)

theorem lookupFile_foldl_delete_none (l : List (String × store.Cluster))
    (fs : FS) (p : FsPath) (h : fs.lookupFile p = none) :
    (l.foldl (fun acc e => e.2.delete acc) fs).lookupFile p = none := by
  induction l generalizing fs with
  | nil => exact h
  | cons a l ih =>
      rw [List.foldl_cons]
      exact ih _ (FS.lookupFile_unlink_none _ _ _ h)

theorem lookupFile_foldl_delete (l : List (String × store.Cluster)) (fs : FS) :
    ∀ e ∈ l,
      (l.foldl (fun acc e => e.2.delete acc) fs).lookupFile e.2.location
        = none := by
  induction l generalizing fs with
  | nil => intro e he; cases he
  | cons a l ih =>
      intro e he
      rw [List.foldl_cons]
      rcases List.mem_cons.mp he with rfl | hm
      · exact lookupFile_foldl_delete_none l _ _
          (FS.lookupFile_unlink_self fs e.2.location)
      · exact ih _ e hm

/-- A Collection whose in-memory ClusterRegistry is empty (as after
construction in a fresh process) over folder "c". -/
def emptyRegCollection : store.Collection :=
  ⟨["c"], ⟨["c"], ⟨[]⟩⟩⟩

/-- A filesystem still holding a cluster file from an earlier run. -/
def residueFS : FS :=
  ⟨[(["c", "x.dat"], [(some "k", Record.dictRec [])])], []⟩

/-- C6 counterexample.  A backing file left on disk for a slug that is not in
the in-memory ClusterRegistry (the registry starts empty in every process)
survives `clear()`, and a subsequent `clusters.get` for that slug touches the
surviving file with `exist_ok=True`: the "recreated" Cluster still holds the
old record, so it is neither fresh nor empty. -/
theorem c6_clear_residue_counterexample :
    (store.ClusterRegistry.get (fun s => s)
        (emptyRegCollection.clear residueFS).1.clusters "x"
        (emptyRegCollection.clear residueFS).2).1.location = ["c", "x.dat"] ∧
    FS.lookupFile (store.ClusterRegistry.get (fun s => s)
        (emptyRegCollection.clear residueFS).1.clusters "x"
        (emptyRegCollection.clear residueFS).2).2.2 ["c", "x.dat"]
      = some [(some "k", Record.dictRec [])] ∧
    FS.lookupFile (store.ClusterRegistry.get (fun s => s)
        (emptyRegCollection.clear residueFS).1.clusters "x"
        (emptyRegCollection.clear residueFS).2).2.2 ["c", "x.dat"]
      ≠ some [] := by
  refine ⟨by decide, by decide, by decide⟩

/-- C6 (amended).  `clear()` deletes the backing file of every Cluster in the
in-memory registry and resets the registry to empty; a subsequent
`clusters.get` then recreates a fresh, empty Cluster for every slug that was
registered at clear time or whose backing file is absent on disk.  (A backing
file on disk for a never-registered slug is not deleted, and its content
survives into the recreated Cluster.) -/
theorem c6_clear_resets_registered_clusters (slugify : String → String)
    (col : store.Collection) (fs : FS) (slug : String)
    (hloc : ∀ e ∈ col.clusters.reg.resources,
      e.2.location = col.folder ++ [e.1 ++ ".dat"]) :
    ((col.clear fs).1.clusters.reg.resources = []) ∧
    (∀ e ∈ col.clusters.reg.resources,
      FS.lookupFile (col.clear fs).2 e.2.location = none) ∧
    ((slugify slug ∈ col.clusters.reg.resources.map (·.1) ∨
        FS.lookupFile fs (col.folder ++ [slugify slug ++ ".dat"]) = none) →
      (store.ClusterRegistry.get slugify (col.clear fs).1.clusters slug
          (col.clear fs).2).1.location
          = col.folder ++ [slugify slug ++ ".dat"] ∧
      FS.lookupFile (store.ClusterRegistry.get slugify
            (col.clear fs).1.clusters slug (col.clear fs).2).2.2
          (col.folder ++ [slugify slug ++ ".dat"])
        = some []) := by
  refine ⟨rfl, fun e he => ?_, fun h2 => ?_⟩
  · exact lookupFile_foldl_delete col.clusters.reg.resources fs e he
  · have habs : FS.lookupFile (col.clear fs).2
        (col.folder ++ [slugify slug ++ ".dat"]) = none := by
      rcases h2 with hmem | habs0
      · rw [List.mem_map] at hmem
        obtain ⟨e, he, heq⟩ := hmem
        have h3 : FS.lookupFile (col.clear fs).2 e.2.location = none :=
          lookupFile_foldl_delete col.clusters.reg.resources fs e he
        rw [hloc e he, heq] at h3
        exact h3
      · exact lookupFile_foldl_delete_none _ _ _ habs0
    have hred : store.ClusterRegistry.get slugify (col.clear fs).1.clusters
        slug (col.clear fs).2
        = (⟨col.folder ++ [slugify slug ++ ".dat"]⟩,
           ⟨col.folder,
            ⟨[(slugify slug, ⟨col.folder ++ [slugify slug ++ ".dat"]⟩)]⟩⟩,
           FS.touchFile (col.clear fs).2
             (col.folder ++ [slugify slug ++ ".dat"])) := rfl
    rw [hred]
    refine ⟨rfl, ?_⟩
    rw [FS.lookupFile_touchFile_self, habs]
    rfl

/-- C6 witness: clearing a collection with one registered cluster "y", then
re-getting "y", yields a fresh empty cluster file. -/
theorem c6_clear_resets_registered_clusters_witness :
    ((store.Collection.clear
        ⟨["c"], ⟨["c"], ⟨[("y", ⟨["c", "y.dat"]⟩)]⟩⟩⟩
        ⟨[(["c", "y.dat"], [(some "k", Record.dictRec [])])], []⟩).1.clusters.reg.resources
      = []) ∧
    ((store.ClusterRegistry.get id
        (store.Collection.clear
          ⟨["c"], ⟨["c"], ⟨[("y", ⟨["c", "y.dat"]⟩)]⟩⟩⟩
          ⟨[(["c", "y.dat"], [(some "k", Record.dictRec [])])], []⟩).1.clusters
        "y"
        (store.Collection.clear
          ⟨["c"], ⟨["c"], ⟨[("y", ⟨["c", "y.dat"]⟩)]⟩⟩⟩
          ⟨[(["c", "y.dat"], [(some "k", Record.dictRec [])])], []⟩).2).1.location
        = ["c"] ++ [id "y" ++ ".dat"] ∧
      FS.lookupFile (store.ClusterRegistry.get id
          (store.Collection.clear
            ⟨["c"], ⟨["c"], ⟨[("y", ⟨["c", "y.dat"]⟩)]⟩⟩⟩
            ⟨[(["c", "y.dat"], [(some "k", Record.dictRec [])])], []⟩).1.clusters
          "y"
          (store.Collection.clear
            ⟨["c"], ⟨["c"], ⟨[("y", ⟨["c", "y.dat"]⟩)]⟩⟩⟩
            ⟨[(["c", "y.dat"], [(some "k", Record.dictRec [])])], []⟩).2).2.2
          (["c"] ++ [id "y" ++ ".dat"])
        = some []) :=
  ⟨(c6_clear_resets_registered_clusters id
      ⟨["c"], ⟨["c"], ⟨[("y", ⟨["c", "y.dat"]⟩)]⟩⟩⟩
      ⟨[(["c", "y.dat"], [(some "k", Record.dictRec [])])], []⟩ "y"
      (by decide)).1,
    (c6_clear_resets_registered_clusters id
      ⟨["c"], ⟨["c"], ⟨[("y", ⟨["c", "y.dat"]⟩)]⟩⟩⟩
      ⟨[(["c", "y.dat"], [(some "k", Record.dictRec [])])], []⟩ "y"
      (by decide)).2.2 (Or.inl (by decide))⟩

/-- C7 counterexample.  There is no single process-wide descriptor table:
`store.py`'s `DeclaredFile` and `catalog.py`'s `DeclaredFile` are two distinct
base classes, each with its own `known_files` dict, and the descriptors they
register behave differently (a `store.py` descriptor ingests through
`store_item`/`to_dict`, a `catalog.py` descriptor through
`store_tuple`/`to_tuple`), so the two tables differ already at key
"currencies".  `Store.ingest_all` enumerates the first table while
`Catalog.ingest_all` enumerates the second. -/
theorem c7_single_table_counterexample :
    ((assocFind? store.DeclaredFile.known_files "currencies").map
        (·.serialization) = some .dictSer) ∧
    ((assocFind? catalog.DeclaredFile.known_files "currencies").map
        (·.serialization) = some .tupSer) ∧
    store.DeclaredFile.known_files ≠ catalog.DeclaredFile.known_files := by
  refine ⟨rfl, rfl, fun h => ?_⟩
  have h1 : (assocFind? store.DeclaredFile.known_files "currencies").map
      (·.serialization) = some Serialization.dictSer := rfl
  have h2 : (assocFind? catalog.DeclaredFile.known_files "currencies").map
      (·.serialization) = some Serialization.tupSer := rfl
  rw [h] at h1
  exact absurd (h1.symm.trans h2) (by decide)

/-- C7 (amended).  Each of the two `DeclaredFile` base classes keeps its own
process-lifetime table: introducing the module's five concrete descriptor
classes registers each of them exactly once, keyed by its name, producing
exactly the module's `known_files` table (with distinct keys in definition
order); `Store.ingest_all` enumerates `store.py`'s table, and
`Catalog.ingest_all` enumerates `catalog.py`'s table. -/
theorem c7_per_module_registration :
    store.elabClasses [] store.moduleClasses
      = .ok store.DeclaredFile.known_files ∧
    store.elabClasses [] catalog.moduleClasses
      = .ok catalog.DeclaredFile.known_files ∧
    store.DeclaredFile.known_files.map (·.1)
      = ["currencies", "currency_holidays", "markets", "holidays",
         "schedules"] ∧
    catalog.DeclaredFile.known_files.map (·.1)
      = ["currencies", "currency_holidays", "markets", "holidays",
         "schedules"] ∧
    (store.DeclaredFile.known_files.map (·.1)).Nodup ∧
    (∀ (slugify : String → String) (folder : store.CsvFolder)
        (s : store.Store) (fs : FS),
      store.Store.ingest_all slugify folder s fs
        = store.ingestList slugify store.DeclaredFile.known_files folder
            s fs) ∧
    (∀ (slugify : String → String) (c : catalog.Catalog)
        (folder : store.CsvFolder) (fs : FS),
      catalog.Catalog.ingest_all slugify c folder fs
        = store.ingestList slugify catalog.DeclaredFile.known_files folder
            c._store fs) :=
  ⟨rfl, rfl, rfl, rfl, by decide, fun _ _ _ _ => rfl, fun _ _ _ _ => rfl⟩

theorem lookupFile_collectionRegGet (slugify : String → String)
    (cr : store.CollectionRegistry) (name : String) (fs : FS) (q : FsPath) :
    ((store.CollectionRegistry.get slugify cr name fs).2.2).lookupFile q
      = fs.lookupFile q := by
  unfold store.CollectionRegistry.get store.Registry.get
    store.CollectionRegistry.create store.Collection.touch
  dsimp only
  cases h : assocFind? cr.reg.resources (slugify name) with
  | some v => rfl
  | none => exact FS.lookupFile_mkdir fs _ q

theorem lookupFile_clusterRegGet_some (slugify : String → String)
    (cr : store.ClusterRegistry) (name : String) (fs : FS) (q : FsPath)
    (c : FileContent) (h : fs.lookupFile q = some c) :
    ((store.ClusterRegistry.get slugify cr name fs).2.2).lookupFile q
      = some c := by
  unfold store.ClusterRegistry.get store.Registry.get
    store.ClusterRegistry.create store.Cluster.touch
  dsimp only
  cases h0 : assocFind? cr.reg.resources (slugify name) with
  | some v => exact h
  | none =>
      by_cases hq : q = cr.folder ++ [slugify name ++ ".dat"]
      · subst hq
        rw [FS.lookupFile_touchFile_self, h]
        rfl
      · rw [FS.lookupFile_touchFile_ne _ _ _ hq]
        exact h

theorem lookupFile_appendLine_extends (fs : FS) (p q : FsPath)
    (line : LogLine) (c : FileContent) (h : fs.lookupFile q = some c) :
    ∃ t, (fs.appendLine p line).lookupFile q = some (c ++ t) := by
  by_cases hq : q = p
  · subst hq
    exact ⟨[line], by rw [FS.lookupFile_appendLine_self, h]; rfl⟩
  · exact ⟨[], by rw [FS.lookupFile_appendLine_ne _ _ _ _ hq, h,
      List.append_nil]⟩

theorem appendRecord_extends (slugify : String → String) (s : store.Store)
    (fs : FS) (record : Record) (coll : String) (cluster : Option String)
    (key : Option String) (q : FsPath) (c : FileContent)
    (h : fs.lookupFile q = some c) :
    ∃ t, ((store.Store.appendRecord slugify s fs record coll cluster
        key).2).lookupFile q = some (c ++ t) := by
  unfold store.Store.appendRecord store.Cluster.append
  dsimp only
  exact lookupFile_appendLine_extends _ _ _ _ _
    (lookupFile_clusterRegGet_some _ _ _ _ _ _
      (by rw [lookupFile_collectionRegGet]; exact h))

theorem ingestRows_extends (slugify : String → String)
    (d : store.DeclaredFileCls) (nm : String)
    (rows : List (Except PyErr store.BaseObject)) :
    ∀ (s : store.Store) (fs : FS) (q : FsPath) (c : FileContent),
      fs.lookupFile q = some c →
      ∃ t, ((store.ingestRows slugify d nm rows s fs).2.2).lookupFile q
        = some (c ++ t) := by
  induction rows with
  | nil =>
      intro s fs q c h
      exact ⟨[], by rw [List.append_nil]; exact h⟩
  | cons r rows ih =>
      intro s fs q c h
      cases r with
      | error e => exact ⟨[], by rw [List.append_nil]; exact h⟩
      | ok item =>
          rw [store.ingestRows]
          dsimp only
          cases hs : d.serialization with
          | dictSer =>
              dsimp only
              obtain ⟨t1, h1⟩ := appendRecord_extends slugify s fs
                item.to_dict nm (d.resolve_cluster item) (d.resolve_key item)
                q c h
              obtain ⟨t2, h2⟩ := ih _ _ q _ h1
              exact ⟨t1 ++ t2, by rw [← List.append_assoc]; exact h2⟩
          | tupSer =>
              dsimp only
              obtain ⟨t1, h1⟩ := appendRecord_extends slugify s fs
                item.to_tuple nm (d.resolve_cluster item) (d.resolve_key item)
                q c h
              obtain ⟨t2, h2⟩ := ih _ _ q _ h1
              exact ⟨t1 ++ t2, by rw [← List.append_assoc]; exact h2⟩

theorem ingestList_split (slugify : String → String)
    (folder : store.CsvFolder) :
    ∀ (ds1 : List (String × store.DeclaredFileCls))
      (d : String × store.DeclaredFileCls)
      (ds2 : List (String × store.DeclaredFileCls)) (s : store.Store)
      (fs : FS) (s1 : store.Store) (fs1 : FS) (e : PyErr) (s2 : store.Store)
      (fs2 : FS),
      store.ingestList slugify ds1 folder s fs = (none, s1, fs1) →
      store.DeclaredFile.ingest slugify d.2 folder s1 fs1 = (some e, s2, fs2) →
      store.ingestList slugify (ds1 ++ d :: ds2) folder s fs
        = (some e, s2, fs2) := by
  intro ds1
  induction ds1 with
  | nil =>
      intro d ds2 s fs s1 fs1 e s2 fs2 h1 h2
      simp only [store.ingestList, Prod.mk.injEq] at h1
      obtain ⟨-, hs, hfs⟩ := h1
      subst hs
      subst hfs
      rw [List.nil_append]
      rw [store.ingestList, h2]
  | cons a ds1 ih =>
      intro d ds2 s fs s1 fs1 e s2 fs2 h1 h2
      rw [List.cons_append]
      rcases hA : store.DeclaredFile.ingest slugify a.2 folder s fs
        with ⟨o, sA, fsA⟩
      rw [store.ingestList, hA]
      rw [store.ingestList, hA] at h1
      cases o with
      | some err => simp at h1
      | none => exact ih d ds2 sA fsA s1 fs1 e s2 fs2 h1 h2

theorem ingestRows_partial (slugify : String → String)
    (d : store.DeclaredFileCls) (nm : String) (e : PyErr)
    (rest : List (Except PyErr store.BaseObject)) :
    ∀ (items : List store.BaseObject) (s : store.Store) (fs : FS),
      store.ingestRows slugify d nm (items.map .ok ++ .error e :: rest) s fs
        = (some e, items.foldl (fun acc item =>
            match d.serialization with
            | .dictSer => store.Store.store_item slugify acc.1 acc.2 item nm
                (d.resolve_cluster item) (d.resolve_key item)
            | .tupSer => store.Store.store_tuple slugify acc.1 acc.2
                item.to_tuple nm (d.resolve_cluster item)
                (d.resolve_key item)) (s, fs)) := by
  intro items
  induction items with
  | nil => intro s fs; rfl
  | cons item items ih =>
      intro s fs
      rw [List.map_cons, List.cons_append, store.ingestRows]
      dsimp only
      rw [List.foldl_cons]
      exact ih _ _

/-- C9.  A missing or unreadable CSV source aborts the whole `ingest_all`
run with the propagated error, leaving exactly the state written so far:
writes of earlier descriptors (and of earlier rows of the failing
descriptor) remain on disk, with no rollback — every file present before a
non-clearing descriptor's ingest is still present afterwards with its old
lines as a prefix. -/
theorem c9_ingest_all_aborts_no_rollback (slugify : String → String) :
    (∀ (folder : store.CsvFolder) (s : store.Store) (fs : FS)
        (ds1 : List (String × store.DeclaredFileCls))
        (d : String × store.DeclaredFileCls)
        (ds2 : List (String × store.DeclaredFileCls)) (e : PyErr)
        (s1 : store.Store) (fs1 : FS) (s2 : store.Store) (fs2 : FS),
      store.DeclaredFile.known_files = ds1 ++ d :: ds2 →
      store.ingestList slugify ds1 folder s fs = (none, s1, fs1) →
      store.DeclaredFile.ingest slugify d.2 folder s1 fs1
        = (some e, s2, fs2) →
      store.Store.ingest_all slugify folder s fs = (some e, s2, fs2)) ∧
    (∀ (d : store.DeclaredFileCls) (nm : String) (folder : store.CsvFolder)
        (items : List store.BaseObject) (e : PyErr)
        (rest : List (Except PyErr store.BaseObject)) (s : store.Store)
        (fs : FS),
      d.name = some nm → d.pre_ingest_clears = false →
      folder (store.filenameOf nm) = some (items.map .ok ++ .error e :: rest) →
      store.DeclaredFile.ingest slugify d folder s fs
        = (some e, items.foldl (fun acc item =>
            match d.serialization with
            | .dictSer => store.Store.store_item slugify acc.1 acc.2 item nm
                (d.resolve_cluster item) (d.resolve_key item)
            | .tupSer => store.Store.store_tuple slugify acc.1 acc.2
                item.to_tuple nm (d.resolve_cluster item)
                (d.resolve_key item)) (s, fs))) ∧
    (∀ (d : store.DeclaredFileCls) (folder : store.CsvFolder)
        (s : store.Store) (fs : FS) (q : FsPath) (c : FileContent),
      d.pre_ingest_clears = false →
      fs.lookupFile q = some c →
      ∃ t, ((store.DeclaredFile.ingest slugify d folder s fs).2.2).lookupFile
        q = some (c ++ t)) := by
  refine ⟨?_, ?_, ?_⟩
  · intro folder s fs ds1 d ds2 e s1 fs1 s2 fs2 hsplit h1 h2
    unfold store.Store.ingest_all
    rw [hsplit]
    exact ingestList_split slugify folder ds1 d ds2 s fs s1 fs1 e s2 fs2 h1 h2
  · intro d nm folder items e rest s fs hn hp hf
    unfold store.DeclaredFile.ingest
    rw [hn]
    dsimp only
    rw [if_neg (by rw [hp]; exact Bool.false_ne_true), hf]
    exact ingestRows_partial slugify d nm e rest items s fs
  · intro d folder s fs q c hp h
    unfold store.DeclaredFile.ingest
    cases hn : d.name with
    | none => exact ⟨[], by rw [List.append_nil]; exact h⟩
    | some nm =>
        dsimp only
        rw [if_neg (by rw [hp]; exact Bool.false_ne_true)]
        cases hf : folder (store.filenameOf nm) with
        | none => exact ⟨[], by rw [List.append_nil]; exact h⟩
        | some rows => exact ingestRows_extends slugify d nm rows s fs q c h

/-- C9 witness: a folder with no files at all aborts `ingest_all` at the
first descriptor with an I/O error, leaving the store untouched; a
currencies source whose second row fails to parse stores the first row and
propagates the row error; an existing file survives a failing ingest. -/
theorem c9_ingest_all_aborts_no_rollback_witness :
    (store.Store.ingest_all id (fun _ => none) (freshStore ["r"]) ⟨[], []⟩
      = (some .ioError, freshStore ["r"], ⟨[], []⟩)) ∧
    (store.DeclaredFile.ingest id store.CurrencyFile
        (fun f => if f = "currencies.csv"
          then some [Except.ok itemX, Except.error PyErr.valueError]
          else none)
        (freshStore ["r"]) ⟨[], []⟩
      = (some .valueError, [itemX].foldl (fun acc item =>
          match store.CurrencyFile.serialization with
          | .dictSer => store.Store.store_item id acc.1 acc.2 item
              "currencies" (store.CurrencyFile.resolve_cluster item)
              (store.CurrencyFile.resolve_key item)
          | .tupSer => store.Store.store_tuple id acc.1 acc.2 item.to_tuple
              "currencies" (store.CurrencyFile.resolve_cluster item)
              (store.CurrencyFile.resolve_key item))
          (freshStore ["r"], ⟨[], []⟩))) ∧
    (∃ t, ((store.DeclaredFile.ingest id store.CurrencyFile (fun _ => none)
        (freshStore ["r"]) ⟨[(["f"], [])], []⟩).2.2).lookupFile ["f"]
      = some ([] ++ t)) :=
  ⟨(c9_ingest_all_aborts_no_rollback id).1 (fun _ => none) (freshStore ["r"])
      ⟨[], []⟩ [] ("currencies", store.CurrencyFile)
      [("currency_holidays", store.CurrencyHolidayFile),
       ("markets", store.MarketFile), ("holidays", store.MarketHolidayFile),
       ("schedules", store.ScheduleFile)] .ioError (freshStore ["r"])
      ⟨[], []⟩ (freshStore ["r"]) ⟨[], []⟩ rfl rfl rfl,
    (c9_ingest_all_aborts_no_rollback id).2.1 store.CurrencyFile "currencies"
      (fun f => if f = "currencies.csv"
        then some [Except.ok itemX, Except.error PyErr.valueError]
        else none)
      [itemX] .valueError [] (freshStore ["r"]) ⟨[], []⟩ rfl rfl rfl,
    (c9_ingest_all_aborts_no_rollback id).2.2 store.CurrencyFile
      (fun _ => none) (freshStore ["r"]) ⟨[(["f"], [])], []⟩ ["f"] [] rfl
      rfl⟩

/-- C1.  For every Cluster, `load_all` replays the log file from the start
into an ordered last-write-wins mapping: after appending two records under
the same key, the loaded mapping holds exactly one entry for that key, whose
value is the second record's. -/
theorem c1_load_all_last_write_wins (c : store.Cluster) (fs : FS)
    (key : Option String) (v1 v2 : Record) :
    (store.Cluster.load_all c
        (store.Cluster.append c key v2 (store.Cluster.append c key v1 fs))).filter
        (fun e => decide (e.1 = key)) = [(key, v2)] := by
  unfold store.Cluster.load_all store.Cluster.append
  rw [FS.lookupFile_appendLine_self, FS.lookupFile_appendLine_self]
  simp only [Option.getD_some]
  rw [List.append_assoc, store.replay_append]
  simp only [List.foldl_cons, List.foldl_nil, List.singleton_append]
  exact store.filter_insertLWW_self _ key v2
    (store.keysOf_insertLWW_nodup _ (store.replay_keys_nodup _))
